import Mathlib

/-!
Shallow embedding of the repository `properly-concurrent`:
`src/managed_thread.rs` (the pause-gate rendezvous between one worker
thread and its driver, and the instrumented `AtomicU32`) and
`src/lib.rs` (the toy `Counter` under test).

The driver-facing operations (`submit`, `unpause`, `join`) are
synchronous: each blocks, inside `Condvar::wait_while`, until the worker
reaches a stable state.  We therefore model a driver call as a function
that also runs the worker's side of the handshake to its next stable
point, which is exactly what the blocking driver observes.  Machine
integers (`u32`) are `Nat` with reduction modulo `2 ^ 32` where the code
can overflow; a Rust `assert!`/`panic!` is `Except.error`.
-/

/-- The u32 modulus: values of the atomic register live below it. -/
def U32 : Nat := 2 ^ 32

/-- The tri-state of the pause gate, `enum State` at
`managed_thread.rs:50-56`: `Ready`, `Running`, `Paused`. -/
inductive State where
  | Ready
  | Running
  | Paused
deriving DecidableEq, Repr

/-- The `#[default]` attribute on `Ready` (`managed_thread.rs:52`):
`State::default()` — the state a fresh `SharedContext` starts in. -/
def stateDefault : State := State.Ready

/-- The first critical section of `SharedContext::pause`
(`managed_thread.rs:72-75`): assert the state is `Running`, set it to
`Paused`, `notify_all`.  Returns the new state and whether the condition
variable was notified; an assertion failure is `Except.error`. -/
def pauseEnter : State → Except String (State × Bool)
  | State.Running => Except.ok (State.Paused, true)
  | _ => Except.error "assertion failed: state == Running"

/-- The worker loop's completion step (`managed_thread.rs:103-106`):
after a closure returns, assert `Running`, set `Ready`, `notify_all`. -/
def completeClosure : State → Except String (State × Bool)
  | State.Running => Except.ok (State.Ready, true)
  | _ => Except.error "assertion failed: state == Running"

/-- The first critical section of `ManagedHandle::unpause`
(`managed_thread.rs:120-123`): assert `Paused`, set `Running`,
`notify_all`. -/
def unpauseBegin : State → Except String (State × Bool)
  | State.Paused => Except.ok (State.Running, true)
  | _ => Except.error "assertion failed: state == Paused"

/-- The first critical section of `ManagedHandle::submit`
(`managed_thread.rs:132-135`): assert `Ready`, set `Running`, send the
closure on the channel (no `notify_all` here: the worker is blocked on
the channel receive, not on the condition variable). -/
def submitBegin : State → Except String (State × Bool)
  | State.Ready => Except.ok (State.Running, false)
  | _ => Except.error "assertion failed: state == Ready"

/-- One atomic mutation of the gate state, by whichever of the four
source-code critical sections succeeds.  These are the only places in
`managed_thread.rs` that write the `state` field. -/
inductive GateStep : State → State → Prop where
  | ofPauseEnter : ∀ {s t : State} {b : Bool},
      pauseEnter s = Except.ok (t, b) → GateStep s t
  | ofComplete : ∀ {s t : State} {b : Bool},
      completeClosure s = Except.ok (t, b) → GateStep s t
  | ofUnpauseBegin : ∀ {s t : State} {b : Bool},
      unpauseBegin s = Except.ok (t, b) → GateStep s t
  | ofSubmitBegin : ∀ {s t : State} {b : Bool},
      submitBegin s = Except.ok (t, b) → GateStep s t

/-- The five memory orderings of `std::sync::atomic::Ordering`. -/
inductive MemOrd where
  | Relaxed
  | Acquire
  | Release
  | AcqRel
  | SeqCst
deriving DecidableEq, Repr

/-- Observable events of one instrumented-`AtomicU32` operation: a
suspension request (`pause()` reaching a registered gate) or the single
raw hardware operation, recording the ordering it was issued with. -/
inductive AtomEvent where
  | suspend
  | evLoad (o : MemOrd) (result : Nat)
  | evStore (v : Nat) (o : MemOrd)
  | evFetchAdd (d : Nat) (o : MemOrd) (prev : Nat)
deriving DecidableEq, Repr

/-- The free function `pause` (`managed_thread.rs:38-42`): consult the
thread-local registry; with a registered gate, one suspension request;
with none, nothing at all. -/
def pauseEvents : Option State → List AtomEvent
  | none => []
  | some _ => [AtomEvent.suspend]

/-- Effect of one event on the register's value: a suspension request
leaves it unchanged, `store` overwrites, `fetch_add` adds modulo 2^32
(`u32` wrapping of the hardware primitive). -/
def applyEvent (m : Nat) : AtomEvent → Nat
  | AtomEvent.suspend => m
  | AtomEvent.evLoad _ _ => m
  | AtomEvent.evStore v _ => v
  | AtomEvent.evFetchAdd d _ _ => (m + d) % U32

/-- The raw `std::sync::atomic::AtomicU32::load` (the `inner` field):
result, new register value, event trace. -/
def Inner.load (m : Nat) (o : MemOrd) : Nat × Nat × List AtomEvent :=
  (m, m, [AtomEvent.evLoad o m])

/-- The raw `std::sync::atomic::AtomicU32::store`: new register value
and event trace. -/
def Inner.store (_m v : Nat) (o : MemOrd) : Nat × List AtomEvent :=
  (v, [AtomEvent.evStore v o])

/-- The raw `std::sync::atomic::AtomicU32::fetch_add`: previous value,
new register value (wrapping add), event trace. -/
def Inner.fetch_add (m d : Nat) (o : MemOrd) : Nat × Nat × List AtomEvent :=
  (m, (m + d) % U32, [AtomEvent.evFetchAdd d o m])

/-- Instrumented `AtomicU32::load` (`managed_thread.rs:13-18`):
`pause(); let result = inner.load(ordering); pause(); result`.
`tl` is the calling thread's thread-local gate registration.
Returns (result, new register value, event trace). -/
def AtomicU32.load (tl : Option State) (m : Nat) (o : MemOrd) :
    Nat × Nat × List AtomEvent :=
  (m, m, pauseEvents tl ++ [AtomEvent.evLoad o m] ++ pauseEvents tl)

/-- Instrumented `AtomicU32::store` (`managed_thread.rs:20-24`):
`pause(); inner.store(value, ordering); pause()`.
Returns (new register value, event trace). -/
def AtomicU32.store (tl : Option State) (_m v : Nat) (o : MemOrd) :
    Nat × List AtomEvent :=
  (v, pauseEvents tl ++ [AtomEvent.evStore v o] ++ pauseEvents tl)

/-- Instrumented `AtomicU32::fetch_add` (`managed_thread.rs:26-35`):
`pause(); let result = inner.fetch_add(value, ordering); pause(); result`.
Returns (previous value, new register value, event trace). -/
def AtomicU32.fetch_add (tl : Option State) (m d : Nat) (o : MemOrd) :
    Nat × Nat × List AtomEvent :=
  (m, (m + d) % U32,
    pauseEvents tl ++ [AtomEvent.evFetchAdd d o m] ++ pauseEvents tl)

/-- A micro step of a submitted closure as the worker executes it.  The
raw operations are those of `Counter::increment` (`lib.rs:16-20`):
`rawLoad` reads the shared register into the worker-local `value`, and
`rawStoreSucc` stores `value + 1` back.  `pausePt` is one call into
`SharedContext::pause` from the instrumentation. -/
inductive Micro where
  | pausePt
  | rawLoad
  | rawStoreSucc
deriving DecidableEq, Repr

/-- `Counter::increment` (`lib.rs:16-20`) through the instrumented
`AtomicU32`: `load(SeqCst)` then `store(value + 1, SeqCst)`, each
bracketed by a suspension point on both sides. -/
def incrementMicros : List Micro :=
  [Micro.pausePt, Micro.rawLoad, Micro.pausePt,
   Micro.pausePt, Micro.rawStoreSucc, Micro.pausePt]

/-- Outcome of letting the worker run while the gate is `Running`: the
shared register, the worker-local `value`, the closure's remaining
micro steps, and the stable gate state reached. -/
structure RunOut where
  mem : Nat
  loaded : Nat
  prog : List Micro
  gate : State
deriving DecidableEq, Repr

/-- The worker thread running while its driver is blocked in
`Condvar::wait_while(.. == Running)`: it executes micro steps until it
either enters a suspension point (`SharedContext::pause` sets the gate
to `Paused`, `managed_thread.rs:74`) or finishes the closure (the worker
loop sets `Ready`, `managed_thread.rs:105`). -/
def runMicros (mem loaded : Nat) : List Micro → RunOut
  | [] => ⟨mem, loaded, [], State.Ready⟩
  | Micro.pausePt :: rest => ⟨mem, loaded, rest, State.Paused⟩
  | Micro.rawLoad :: rest => runMicros mem mem rest
  | Micro.rawStoreSucc :: rest => runMicros ((loaded + 1) % U32) loaded rest

/-- Driver-side view of one managed worker: the gate state, the
in-flight closure's remaining micro steps, and the worker-local
`value` variable of `Counter::increment`. -/
structure Worker where
  gate : State
  prog : List Micro
  loaded : Nat
deriving DecidableEq, Repr

/-- The blocking tail shared by `submit` and `unpause`
(`managed_thread.rs:124-128` and `136-140`): the driver waits while the
state is `Running`; meanwhile the worker runs to its next stable point.
Returns the new shared register value and the worker afterwards. -/
def advance (mem : Nat) (w : Worker) : Nat × Worker :=
  let r := runMicros mem w.loaded w.prog
  (r.mem, ⟨r.gate, r.prog, r.loaded⟩)

/-- The handle returned by `spawn` (`managed_thread.rs:90-111`): a fresh
`SharedContext` is `Default::default()`, so the gate starts at
`stateDefault = Ready`, with no closure in flight. -/
def ManagedHandle.spawn : Worker := ⟨stateDefault, [], 0⟩

/-- `ManagedHandle::is_paused` (`managed_thread.rs:114-117`): lock the
state and compare against `Paused`. -/
def ManagedHandle.isPaused (w : Worker) : Bool :=
  match w.gate with
  | State.Paused => true
  | _ => false

/-- `ManagedHandle::submit` (`managed_thread.rs:131-141`): assert the
gate is `Ready`, set it to `Running`, send the closure on the channel,
then wait while the state is `Running` (the worker receives the closure
and runs it to its next stable point).  The assertion failure is the
`Except.error` arm. -/
def ManagedHandle.submit (mem : Nat) (w : Worker) (clos : List Micro) :
    Except String (Nat × Worker) :=
  if w.gate = State.Ready then
    Except.ok (advance mem { w with gate := State.Running, prog := clos })
  else Except.error "assertion failed: state == Ready"

/-- `ManagedHandle::unpause` (`managed_thread.rs:119-129`): assert the
gate is `Paused`, set it to `Running`, `notify_all` (waking the worker
blocked inside `SharedContext::pause`), then wait while the state is
`Running`. -/
def ManagedHandle.unpause (mem : Nat) (w : Worker) :
    Except String (Nat × Worker) :=
  if w.gate = State.Paused then
    Except.ok (advance mem { w with gate := State.Running })
  else Except.error "assertion failed: state == Paused"

/-- The loop of `ManagedHandle::join` (`managed_thread.rs:144-146`):
`while self.is_paused() { self.unpause() }`.  The `fuel` argument
bounds the number of iterations so the function is structurally
recursive; `ManagedHandle.join` passes `w.prog.length + 1`, which the
theorem `join_drains` proves sufficient (each unpause consumes at least
one remaining micro step of the in-flight closure). -/
def ManagedHandle.joinAux : Nat → Nat → Worker → Nat × Worker
  | 0, mem, w => (mem, w)
  | fuel + 1, mem, w =>
    if w.gate = State.Paused then
      let r := advance mem { w with gate := State.Running }
      ManagedHandle.joinAux fuel r.1 r.2
    else (mem, w)

/-- `ManagedHandle::join` (`managed_thread.rs:143-149`): repeatedly
unpause while paused, then drop the sender (the worker loop's channel
iteration ends) and join the thread. -/
def ManagedHandle.join (mem : Nat) (w : Worker) : Nat × Worker :=
  ManagedHandle.joinAux (w.prog.length + 1) mem w

/-- Value semantics of `Counter::increment` (`lib.rs:16-20`) on the
register, instrumentation aside: load the value, store `value + 1`
(u32 wrapping arithmetic). -/
def counterIncrement (m : Nat) : Nat :=
  (runMicros m 0 [Micro.rawLoad, Micro.rawStoreSucc]).mem

/-- The largest `u32`, `u32::MAX`. -/
def u32Max : Nat := U32 - 1

/-- The state of the `pbt`/`exhaustytest` scenario (`lib.rs:48-126`):
one shared `Counter` register and two managed workers. -/
structure Sys where
  mem : Nat
  w1 : Worker
  w2 : Worker
deriving DecidableEq, Repr

/-- One driver decision against the two-worker system: submit an
`increment` closure to a worker, or unpause it. -/
inductive Cmd where
  | submit1
  | submit2
  | unpause1
  | unpause2
deriving DecidableEq, Repr

/-- Execute one driver command (a `t.submit(|c| c.increment())` or a
`t.unpause()` from the tests in `lib.rs`). -/
def stepCmd (s : Sys) : Cmd → Except String Sys
  | Cmd.submit1 =>
    (ManagedHandle.submit s.mem s.w1 incrementMicros).map
      fun r => { s with mem := r.1, w1 := r.2 }
  | Cmd.submit2 =>
    (ManagedHandle.submit s.mem s.w2 incrementMicros).map
      fun r => { s with mem := r.1, w2 := r.2 }
  | Cmd.unpause1 =>
    (ManagedHandle.unpause s.mem s.w1).map
      fun r => { s with mem := r.1, w1 := r.2 }
  | Cmd.unpause2 =>
    (ManagedHandle.unpause s.mem s.w2).map
      fun r => { s with mem := r.1, w2 := r.2 }

/-- Run a whole driver script left to right. -/
def runCmds : Sys → List Cmd → Except String Sys
  | s, [] => Except.ok s
  | s, c :: rest => (stepCmd s c).bind fun t => runCmds t rest

/-- The initial system of the tests: `Counter::default()` (register 0)
and two freshly spawned workers. -/
def initSys : Sys := ⟨0, ManagedHandle.spawn, ManagedHandle.spawn⟩

/-- One lost-update round: both workers are submitted an increment,
both are stepped past their load (each reads the same value), then each
is stepped to completion — both store the same value + 1, so the two
increments raise the register by one. -/
def lostUpdateRound : List Cmd :=
  [Cmd.submit1, Cmd.submit2, Cmd.unpause1, Cmd.unpause2,
   Cmd.unpause1, Cmd.unpause1, Cmd.unpause1,
   Cmd.unpause2, Cmd.unpause2, Cmd.unpause2]

/-- An adversarial interleaving of 3 increments per worker: three
lost-update rounds. -/
def lostUpdateScript : List Cmd :=
  lostUpdateRound ++ lostUpdateRound ++ lostUpdateRound

/-! ## Helper lemmas about the worker's run to a stable state -/

/-- Running the worker always ends in a stable gate state: `Paused` at a
suspension point or `Ready` at closure completion; at `Ready` the whole
closure has been consumed; at `Paused` at least one micro step of the
closure was consumed. -/
theorem runMicros_stable (m l : Nat) (p : List Micro) :
    ((runMicros m l p).gate = State.Paused ∨ (runMicros m l p).gate = State.Ready) ∧
    ((runMicros m l p).gate = State.Ready → (runMicros m l p).prog = []) ∧
    ((runMicros m l p).gate = State.Paused →
      (runMicros m l p).prog.length < p.length) := by
  induction p generalizing m l with
  | nil => simp [runMicros]
  | cons c rest ih =>
    cases c with
    | pausePt => simp [runMicros, Nat.lt_succ_self]
    | rawLoad =>
      rcases ih m m with ⟨h1, h2, h3⟩
      refine ⟨by simpa [runMicros] using h1, by simpa [runMicros] using h2, ?_⟩
      intro hp
      have h4 := h3 (by simpa [runMicros] using hp)
      simp only [runMicros, List.length_cons]
      omega
    | rawStoreSucc =>
      rcases ih ((l + 1) % U32) l with ⟨h1, h2, h3⟩
      refine ⟨by simpa [runMicros] using h1, by simpa [runMicros] using h2, ?_⟩
      intro hp
      have h4 := h3 (by simpa [runMicros] using hp)
      simp only [runMicros, List.length_cons]
      omega

/-- The worker observed right after a blocking driver call is stable. -/
theorem advance_stable (mem : Nat) (w : Worker) :
    (advance mem w).2.gate = State.Paused ∨ (advance mem w).2.gate = State.Ready := by
  simpa [advance] using (runMicros_stable mem w.loaded w.prog).1

/-- On a stable worker, `is_paused` distinguishes the two stable states
exactly. -/
theorem isPaused_reflects (w : Worker)
    (h : w.gate = State.Paused ∨ w.gate = State.Ready) :
    (w.gate = State.Paused ∧ ManagedHandle.isPaused w = true) ∨
    (w.gate = State.Ready ∧ ManagedHandle.isPaused w = false) := by
  rcases h with h | h <;> simp [ManagedHandle.isPaused, h]

/-- The join loop does nothing on a worker that is not paused. -/
theorem joinAux_not_paused (fuel mem : Nat) (w : Worker)
    (h : ¬ w.gate = State.Paused) :
    ManagedHandle.joinAux fuel mem w = (mem, w) := by
  cases fuel with
  | zero => rfl
  | succ fuel => simp [ManagedHandle.joinAux, h]

/-- With fuel exceeding the in-flight closure's remaining micro steps,
the join loop drains the worker: it ends `Ready` with the closure fully
consumed. -/
theorem joinAux_drains : ∀ (fuel mem : Nat) (w : Worker),
    w.prog.length < fuel →
    (w.gate = State.Paused ∨ (w.gate = State.Ready ∧ w.prog = [])) →
    (ManagedHandle.joinAux fuel mem w).2.gate = State.Ready ∧
    (ManagedHandle.joinAux fuel mem w).2.prog = [] := by
  intro fuel
  induction fuel with
  | zero => intro mem w hlen _; exact absurd hlen (Nat.not_lt_zero _)
  | succ fuel ih =>
    intro mem w hlen hst
    rcases hst with hp | ⟨hr, hpr⟩
    · rcases runMicros_stable mem w.loaded w.prog with ⟨hg, hgr, hgp⟩
      have hstep : ManagedHandle.joinAux (fuel + 1) mem w =
          ManagedHandle.joinAux fuel
            (advance mem { w with gate := State.Running }).1
            (advance mem { w with gate := State.Running }).2 := by
        simp [ManagedHandle.joinAux, hp]
      rw [hstep]
      rcases hg with hgP | hgR
      · refine ih _ _ ?_ (Or.inl (by simp [advance, hgP]))
        have h1 := hgp hgP
        have h2 : (advance mem { w with gate := State.Running }).2.prog =
            (runMicros mem w.loaded w.prog).prog := by simp [advance]
        rw [h2]
        omega
      · rw [joinAux_not_paused]
        · constructor <;> simp [advance, hgR, hgr hgR]
        · simp [advance, hgR]
    · rw [joinAux_not_paused]
      · exact ⟨hr, hpr⟩
      · simp [hr]

/-! ## The claims -/

/-- C1: from a `Ready` gate, `ManagedHandle::submit` sets the state to
`Running`, hands the closure to the worker and blocks in
`wait_while(.. == Running)`; when it returns the gate is in a stable
state, `Paused` (the closure hit a suspension point) or `Ready` (the
closure ran to completion). -/
theorem submit_sync (mem : Nat) (w : Worker) (clos : List Micro)
    (h : w.gate = State.Ready) :
    ManagedHandle.submit mem w clos =
      Except.ok (advance mem { w with gate := State.Running, prog := clos }) ∧
    ∃ mem2 w2, ManagedHandle.submit mem w clos = Except.ok (mem2, w2) ∧
      (w2.gate = State.Paused ∨ w2.gate = State.Ready) := by
  have he : ManagedHandle.submit mem w clos =
      Except.ok (advance mem { w with gate := State.Running, prog := clos }) := by
    simp [ManagedHandle.submit, h]
  refine ⟨he, (advance mem { w with gate := State.Running, prog := clos }).1,
    (advance mem { w with gate := State.Running, prog := clos }).2,
    by rw [he], ?_⟩
  exact advance_stable mem { w with gate := State.Running, prog := clos }

/-- Witness for C1: submitting an `increment` to a freshly spawned
worker. -/
theorem submit_sync_witness :
    ManagedHandle.submit 0 ManagedHandle.spawn incrementMicros =
      Except.ok (advance 0
        { ManagedHandle.spawn with gate := State.Running, prog := incrementMicros }) ∧
    ∃ mem2 w2,
      ManagedHandle.submit 0 ManagedHandle.spawn incrementMicros = Except.ok (mem2, w2) ∧
      (w2.gate = State.Paused ∨ w2.gate = State.Ready) :=
  submit_sync 0 ManagedHandle.spawn incrementMicros rfl

/-- C2: from a `Paused` gate, `ManagedHandle::unpause` sets the state
to `Running`, wakes the worker, and blocks until the state is no longer
`Running`; right after it (or `submit`) returns, `is_paused` exactly
reflects the worker's stable state, `Paused` or `Ready`, with no
further waiting needed. -/
theorem unpause_sync (mem : Nat) (w : Worker) (h : w.gate = State.Paused) :
    ManagedHandle.unpause mem w =
      Except.ok (advance mem { w with gate := State.Running }) ∧
    (∃ mem2 w2, ManagedHandle.unpause mem w = Except.ok (mem2, w2) ∧
      ((w2.gate = State.Paused ∧ ManagedHandle.isPaused w2 = true) ∨
       (w2.gate = State.Ready ∧ ManagedHandle.isPaused w2 = false))) ∧
    (∀ (m3 : Nat) (w3 : Worker) (c3 : List Micro) (m4 : Nat) (w4 : Worker),
      ManagedHandle.submit m3 w3 c3 = Except.ok (m4, w4) →
      ((w4.gate = State.Paused ∧ ManagedHandle.isPaused w4 = true) ∨
       (w4.gate = State.Ready ∧ ManagedHandle.isPaused w4 = false))) := by
  have he : ManagedHandle.unpause mem w =
      Except.ok (advance mem { w with gate := State.Running }) := by
    simp [ManagedHandle.unpause, h]
  refine ⟨he, ⟨(advance mem { w with gate := State.Running }).1,
      (advance mem { w with gate := State.Running }).2, by rw [he], ?_⟩, ?_⟩
  · exact isPaused_reflects _ (advance_stable mem { w with gate := State.Running })
  · intro m3 w3 c3 m4 w4 hok
    by_cases hg : w3.gate = State.Ready
    · have hadv : advance m3 { w3 with gate := State.Running, prog := c3 } = (m4, w4) := by
        simpa [ManagedHandle.submit, hg] using hok
      have hw4 : w4 = (advance m3 { w3 with gate := State.Running, prog := c3 }).2 := by
        rw [hadv]
      rw [hw4]
      exact isPaused_reflects _ (advance_stable _ _)
    · simp [ManagedHandle.submit, hg] at hok

/-- Witness for C2: unpausing a worker paused just before the final
suspension point of a closure. -/
theorem unpause_sync_witness :
    ManagedHandle.unpause 0 ⟨State.Paused, [Micro.pausePt], 0⟩ =
      Except.ok (advance 0
        { (⟨State.Paused, [Micro.pausePt], 0⟩ : Worker) with gate := State.Running }) ∧
    (∃ mem2 w2,
      ManagedHandle.unpause 0 ⟨State.Paused, [Micro.pausePt], 0⟩ = Except.ok (mem2, w2) ∧
      ((w2.gate = State.Paused ∧ ManagedHandle.isPaused w2 = true) ∨
       (w2.gate = State.Ready ∧ ManagedHandle.isPaused w2 = false))) ∧
    (∀ (m3 : Nat) (w3 : Worker) (c3 : List Micro) (m4 : Nat) (w4 : Worker),
      ManagedHandle.submit m3 w3 c3 = Except.ok (m4, w4) →
      ((w4.gate = State.Paused ∧ ManagedHandle.isPaused w4 = true) ∨
       (w4.gate = State.Ready ∧ ManagedHandle.isPaused w4 = false))) :=
  unpause_sync 0 ⟨State.Paused, [Micro.pausePt], 0⟩ rfl

/-- C7: `ManagedHandle::join`, callable while the worker is `Paused`
mid-closure or idle, repeatedly unpauses until the worker is no longer
paused; the loop terminates within the closure's finitely many
remaining steps, the in-flight closure having been resumed to
completion (gate `Ready`, nothing left to run), after which the channel
drop lets the worker loop exit. -/
theorem join_drains (mem : Nat) (w : Worker)
    (h : w.gate = State.Paused ∨ (w.gate = State.Ready ∧ w.prog = [])) :
    (ManagedHandle.join mem w).2.gate = State.Ready ∧
    (ManagedHandle.join mem w).2.prog = [] :=
  joinAux_drains (w.prog.length + 1) mem w (Nat.lt_succ_self _) h

/-- Witness for C7: joining a worker paused mid-increment (still having
a store and two suspension points to run). -/
theorem join_drains_witness :
    (ManagedHandle.join 1
      ⟨State.Paused, [Micro.pausePt, Micro.rawStoreSucc, Micro.pausePt], 1⟩).2.gate =
        State.Ready ∧
    (ManagedHandle.join 1
      ⟨State.Paused, [Micro.pausePt, Micro.rawStoreSucc, Micro.pausePt], 1⟩).2.prog = [] :=
  join_drains 1 ⟨State.Paused, [Micro.pausePt, Micro.rawStoreSucc, Micro.pausePt], 1⟩
    (Or.inl rfl)

/-- C3: `SharedContext::pause`, the worker's suspension point, requires
the gate to be `Running`; it sets the state to `Paused` and notifies the
waiting driver, then blocks in `wait_while(.. == Paused)`; since the
only gate transition out of `Paused` goes to `Running` (the driver's
`unpause`), the wait ends with the state `Running` again — which is
what the assertion after the wait (`managed_thread.rs:80`) checks. -/
theorem pause_suspension :
    pauseEnter State.Running = Except.ok (State.Paused, true) ∧
    (∀ (s t : State) (b : Bool),
      pauseEnter s = Except.ok (t, b) → s = State.Running) ∧
    (∀ t : State, GateStep State.Paused t → t = State.Running) := by
  refine ⟨rfl, ?_, ?_⟩
  · intro s t b h
    cases s <;> simp_all [pauseEnter]
  · intro t h
    cases h <;> rename_i b h2 <;>
      simp_all [pauseEnter, completeClosure, unpauseBegin, submitBegin]

/-- C4: the gate state ranges over exactly {Ready, Running, Paused}, is
`Ready` when the worker is spawned, and the four state-writing critical
sections of `managed_thread.rs` realise exactly the four transitions
Running→Paused, Running→Ready (with a driver wakeup), Paused→Running
and Ready→Running — nothing else. -/
theorem gate_transitions :
    stateDefault = State.Ready ∧
    ManagedHandle.spawn.gate = State.Ready ∧
    (∀ s : State, s = State.Ready ∨ s = State.Running ∨ s = State.Paused) ∧
    completeClosure State.Running = Except.ok (State.Ready, true) ∧
    (∀ s t : State, GateStep s t ↔
      ((s = State.Running ∧ t = State.Paused) ∨
       (s = State.Running ∧ t = State.Ready) ∨
       (s = State.Paused ∧ t = State.Running) ∨
       (s = State.Ready ∧ t = State.Running))) := by
  refine ⟨rfl, rfl, fun s => by cases s <;> simp, rfl,
    fun s t => ⟨fun h => ?_, fun h => ?_⟩⟩
  · cases h <;> rename_i b h2 <;> cases s <;>
      simp_all [pauseEnter, completeClosure, unpauseBegin, submitBegin]
  · rcases h with ⟨hs, ht⟩ | ⟨hs, ht⟩ | ⟨hs, ht⟩ | ⟨hs, ht⟩ <;> subst hs <;> subst ht
    · exact GateStep.ofPauseEnter
        (show pauseEnter State.Running = Except.ok (State.Paused, true) from rfl)
    · exact GateStep.ofComplete
        (show completeClosure State.Running = Except.ok (State.Ready, true) from rfl)
    · exact GateStep.ofUnpauseBegin
        (show unpauseBegin State.Paused = Except.ok (State.Running, true) from rfl)
    · exact GateStep.ofSubmitBegin
        (show submitBegin State.Ready = Except.ok (State.Running, false) from rfl)

/-- C5: each instrumented `AtomicU32` operation, called from a managed
thread (a gate `g` registered thread-locally), performs one suspension
request, then the single raw hardware operation carrying the caller's
memory ordering unchanged, then a second suspension request;
`fetch_add` returns the register's previous value; and a suspension
request never changes the register's value (the traces fold to exactly
the operations' results). -/
theorem instrumented_decomposition (g : State) (m v d : Nat) (o : MemOrd) :
    AtomicU32.load (some g) m o =
      (m, m, [AtomEvent.suspend, AtomEvent.evLoad o m, AtomEvent.suspend]) ∧
    AtomicU32.store (some g) m v o =
      (v, [AtomEvent.suspend, AtomEvent.evStore v o, AtomEvent.suspend]) ∧
    AtomicU32.fetch_add (some g) m d o =
      (m, (m + d) % U32,
        [AtomEvent.suspend, AtomEvent.evFetchAdd d o m, AtomEvent.suspend]) ∧
    (∀ x : Nat, applyEvent x AtomEvent.suspend = x) ∧
    (AtomicU32.load (some g) m o).2.1 =
      List.foldl applyEvent m (AtomicU32.load (some g) m o).2.2 ∧
    (AtomicU32.store (some g) m v o).1 =
      List.foldl applyEvent m (AtomicU32.store (some g) m v o).2 ∧
    (AtomicU32.fetch_add (some g) m d o).2.1 =
      List.foldl applyEvent m (AtomicU32.fetch_add (some g) m d o).2.2 := by
  refine ⟨rfl, rfl, rfl, fun x => rfl, ?_, ?_, ?_⟩ <;>
    simp [AtomicU32.load, AtomicU32.store, AtomicU32.fetch_add,
      pauseEvents, applyEvent]

/-- C6: from a thread with no pause gate registered in its thread-local
slot, `pause()` does nothing, and every instrumented operation is
exactly the raw hardware operation — same result, same new value, same
single-event trace. -/
theorem unmanaged_passthrough (m v d : Nat) (o : MemOrd) :
    pauseEvents none = [] ∧
    AtomicU32.load none m o = Inner.load m o ∧
    AtomicU32.store none m v o = Inner.store m v o ∧
    AtomicU32.fetch_add none m d o = Inner.fetch_add m d o :=
  ⟨rfl, rfl, rfl, rfl⟩

/-- C8: the protocol-contract assertions are fatal: `submit` while the
gate is not `Ready`, `unpause` while not `Paused`, and entering the
suspension point while not `Running` each hit `assert_eq!` (modelled as
`Except.error`, i.e. a panic aborting the test) instead of returning a
recoverable error value. -/
theorem protocol_violation_fatal :
    (∀ (mem : Nat) (w : Worker) (clos : List Micro), ¬ w.gate = State.Ready →
      ManagedHandle.submit mem w clos =
        Except.error "assertion failed: state == Ready") ∧
    (∀ (mem : Nat) (w : Worker), ¬ w.gate = State.Paused →
      ManagedHandle.unpause mem w =
        Except.error "assertion failed: state == Paused") ∧
    (∀ s : State, ¬ s = State.Running →
      pauseEnter s = Except.error "assertion failed: state == Running") := by
  refine ⟨?_, ?_, ?_⟩
  · intro mem w clos h
    simp [ManagedHandle.submit, h]
  · intro mem w h
    simp [ManagedHandle.unpause, h]
  · intro s h
    cases s <;> simp_all [pauseEnter]

/-- C9: two workers, each submitted 3 increments of the shared
instrumented counter (a plain load-then-store, `lib.rs:16-20`), driven
by the adversarial interleaving `lostUpdateScript`: every step of the
script succeeds and the final counter value is 3, strictly less than
the 6 increments issued — a reproducible lost update. -/
theorem lost_update_interleaving :
    lostUpdateScript.count Cmd.submit1 = 3 ∧
    lostUpdateScript.count Cmd.submit2 = 3 ∧
    (runCmds initSys lostUpdateScript).toOption.map Sys.mem = some 3 ∧
    3 < 6 := by
  refine ⟨by decide, by decide, by decide, by decide⟩

/-- C10: `Counter::increment` stores `value + 1` with unchecked u32
addition, so from `u32::MAX` it wraps to 0 (modulo 2^32) instead of
producing `u32::MAX + 1`; below the maximum it increments normally, and
nothing bounds the number of increments. -/
theorem increment_wraps_at_max :
    counterIncrement u32Max = 0 ∧
    ¬ counterIncrement u32Max = u32Max + 1 ∧
    (∀ m : Nat, m < u32Max → counterIncrement m = m + 1) := by
  have hci : ∀ m : Nat, counterIncrement m = (m + 1) % U32 := fun m => rfl
  refine ⟨by decide, by decide, ?_⟩
  intro m hm
  have hmax : u32Max = U32 - 1 := rfl
  have hU : 0 < U32 := by decide
  rw [hci]
  exact Nat.mod_eq_of_lt (by omega)
